import Mathlib

/-
  Verification of the AMBOT actuator-node firmware (CmdCtrl_Main) against its
  natural-language specification.  The definitions below are a shallow
  embedding of the C++ sources: Motor (MotorDriver), ServoController,
  the command interpreter `processCommand`, the ingestor `checkInput`,
  the failsafe supervision in `loop`, and the LED scanner logic.
-/

namespace AMBOT

/-- Maximum command line length (GlobalVariables.cpp). -/
def MAX_CMD_LEN : Nat := 32

/-- Failsafe timeout in milliseconds (GlobalVariables.cpp). -/
def FAILSAFE_TIMEOUT : Nat := 500

/-- Motor update cadence in milliseconds (CmdCtrl_Main.ino). -/
def MOTOR_INTERVAL : Nat := 10

/-- Servo update cadence in milliseconds (CmdCtrl_Main.ino). -/
def SERVO_INTERVAL : Nat := 20

/-- System code emitted when the failsafe trips (SystemCodes.h). -/
def SAFE_FAILSAFE_TRIGGER : Nat := 4005

/-- System code emitted when the failsafe clears (SystemCodes.h). -/
def SAFE_FAILSAFE_CLEAR : Nat := 4006

/-- Number of servo joints (ServoController.h). -/
def numServos : Nat := 6

/-- Arduino constrain macro on machine ints, modelled on Int. -/
def constrain (amt low high : Int) : Int :=
  if amt < low then low else if amt > high then high else amt

/-- Motor state (MotorDriver.h): pin fields are omitted, the three
integer fields that the control logic reads and writes are kept. -/
structure Motor where
  targetPWM : Int
  currentPWM : Int
  pwmStep : Int
deriving DecidableEq

/-- Motor::setTarget — clamp to [-255,255] and store. -/
def Motor.setTarget (m : Motor) (pwm : Int) : Motor :=
  { m with targetPWM := constrain pwm (-255) 255 }

/-- The ramp step of Motor::update (first two lines of the body). -/
def motorRamp (pwmStep targetPWM current : Int) : Int :=
  if current < targetPWM then min (current + pwmStep) targetPWM
  else if current > targetPWM then max (current - pwmStep) targetPWM
  else current

/-- Motor::update — advance currentPWM toward targetPWM by the ramp;
the analogWrite calls are pure outputs and carry no state. -/
def Motor.update (m : Motor) : Motor :=
  { m with currentPWM := motorRamp m.pwmStep m.targetPWM m.currentPWM }

/-- Motor::emergencyStop — zero target and current immediately. -/
def Motor.emergencyStop (m : Motor) : Motor :=
  { m with targetPWM := 0, currentPWM := 0 }

/-- Arduino constrain on float values, modelled on the rationals. -/
def qconstrain (amt low high : ℚ) : ℚ :=
  if amt < low then low else if amt > high then high else amt

/-- The ramp step of ServoController::update (lines 56-57), float
arithmetic modelled on the rationals. -/
def servoRamp (accel decel targetSpeed speed : ℚ) : ℚ :=
  if speed < targetSpeed then min (speed + accel) targetSpeed
  else if speed > targetSpeed then max (speed - decel) targetSpeed
  else speed

/-- One servo joint slice of ServoController state. -/
structure Joint where
  angle : ℚ
  speed : ℚ
  sensitivity : ℚ
deriving DecidableEq

/-- The per-joint body of ServoController::update: derive the target
speed from the command char, ramp the speed, integrate the angle and
clamp it to [0,180]. The pulse write is a pure output. -/
def jointUpdate (maxSpeed accel decel : ℚ) (cmd : Char) (j : Joint) : Joint :=
  let targetSpeed : ℚ :=
    if cmd = 'L' then -maxSpeed * j.sensitivity
    else if cmd = 'R' then maxSpeed * j.sensitivity
    else 0
  let speed := servoRamp accel decel targetSpeed j.speed
  { angle := qconstrain (j.angle + speed) 0 180, speed := speed,
    sensitivity := j.sensitivity }

/-- ServoController state (ServoController.h). -/
structure ServoController where
  joints : List Joint
  maxSpeed : ℚ
  accel : ℚ
  decel : ℚ
deriving DecidableEq

/-- ServoController::update over the command array. -/
def ServoController.update (sc : ServoController) (commands : List Char) :
    ServoController :=
  let js := (sc.joints.zip commands).map
    (fun p => jointUpdate sc.maxSpeed sc.accel sc.decel p.2 p.1)
  { sc with joints := js }

/-- ServoController::emergencyStop — zero every speed, keep angles. -/
def ServoController.emergencyStop (sc : ServoController) : ServoController :=
  { sc with joints := sc.joints.map (fun j => { j with speed := 0 }) }

/-- Char read from the null-terminated command buffer: positions past
the stored line read the terminating null. -/
def charAt (cmd : List Char) (i : Nat) : Char := cmd.getD i '\x00'

/-- Accumulator for strtok-style tokenization on a single delimiter. -/
def splitTokensAux : List Char → List Char → List (List Char)
  | [], acc => if acc.isEmpty then [] else [acc.reverse]
  | c :: rest, acc =>
    if c = ',' then
      if acc.isEmpty then splitTokensAux rest []
      else acc.reverse :: splitTokensAux rest []
    else splitTokensAux rest (c :: acc)

/-- strtok(cmd, ",") iterated: the comma-separated tokens of the line,
empty tokens skipped, exactly as strtok does. -/
def tokenize (cmd : List Char) : List (List Char) := splitTokensAux cmd []

/-- Digit-prefix accumulator of atoi. -/
def digitsVal : List Char → Int → Int
  | [], acc => acc
  | c :: rest, acc =>
    if c.isDigit then digitsVal rest (acc * 10 + ((c.toNat : Int) - 48))
    else acc

/-- The C isspace set used by atoi. -/
def isSpaceByte (c : Char) : Bool :=
  c == ' ' || c == '\t' || c == '\n' || c == '\x0b' || c == '\x0c' || c == '\r'

/-- C atoi on a token: skip leading whitespace, optional sign, then the
longest digit prefix; a non-numeric token yields 0. -/
def atoi (s : List Char) : Int :=
  match s.dropWhile isSpaceByte with
  | '-' :: rest => - digitsVal rest 0
  | '+' :: rest => digitsVal rest 0
  | t => digitsVal t 0

/-- The servo-direction character actually stored by processCommand
line 50: the direction if it is L or R, else 0 (Hold). -/
def servoDirOf (dir : Char) : Char :=
  if dir = 'L' ∨ dir = 'R' then dir else '\x00'

/-- Global state of the actuator node touched by the control loop
(GlobalVariables.cpp); `events` collects the codes passed to
transmitCode, in order. -/
structure SysState where
  leftMotor : Motor
  rightMotor : Motor
  controller : ServoController
  servoCommands : List Char
  isLeftMotorActive : Bool
  isRightMotorActive : Bool
  failsafeTriggered : Bool
  lastCommandTime : Nat
  lastMotorTime : Nat
  lastServoTime : Nat
  events : List Nat
deriving DecidableEq

/-- The unconditional first lines of processCommand (CmdCtrl_Main.ino
lines 38-43): reset the failsafe timer to now and, if the failsafe was
tripped, clear it and emit the cleared event. -/
def resetAndClear (s : SysState) (now : Nat) : SysState :=
  let s1 := { s with lastCommandTime := now }
  if s1.failsafeTriggered then
    { s1 with failsafeTriggered := false,
              events := s1.events ++ [SAFE_FAILSAFE_CLEAR] }
  else s1

/-- The dispatch of processCommand (CmdCtrl_Main.ino lines 45-68): the
S-branch writes a joint command when the index idx = cmd[1]-49 is in
range, the default branch tokenizes on commas and applies the two atoi
values leftVal, rightVal as motor targets when two tokens exist. -/
def commandDispatch (s2 : SysState) (cmd : List Char) : SysState :=
  if charAt cmd 0 = 'S' then
    if 0 ≤ ((charAt cmd 1).toNat : Int) - 49 ∧
        ((charAt cmd 1).toNat : Int) - 49 < (numServos : Int) then
      { s2 with servoCommands := s2.servoCommands.set (((charAt cmd 1).toNat : Int) - 49).toNat (servoDirOf (charAt cmd 2)) }
    else s2
  else
    match tokenize cmd with
    | t1 :: t2 :: _ =>
      { s2 with
          leftMotor := s2.leftMotor.setTarget (atoi t1),
          rightMotor := s2.rightMotor.setTarget (atoi t2),
          isLeftMotorActive := atoi t1 != 0,
          isRightMotorActive := atoi t2 != 0 }
    | _ => s2

/-- processCommand (CmdCtrl_Main.ino lines 37-69). -/
def processCommand (s : SysState) (now : Nat) (cmd : List Char) : SysState :=
  commandDispatch (resetAndClear s now) cmd

/-- All complete lines drained from the ingestors in one loop pass,
dispatched in order to processCommand. -/
def processBatch (s : SysState) (now : Nat) (lines : List (List Char)) : SysState :=
  lines.foldl (fun st l => processCommand st now l) s

/-- The failsafe check of loop() (CmdCtrl_Main.ino lines 144-157). -/
def failsafeCheck (s : SysState) (now : Nat) : SysState :=
  if ¬ s.failsafeTriggered ∧ now - s.lastCommandTime > FAILSAFE_TIMEOUT then
    { s with failsafeTriggered := true,
             leftMotor := s.leftMotor.emergencyStop,
             rightMotor := s.rightMotor.emergencyStop,
             controller := s.controller.emergencyStop,
             isLeftMotorActive := false,
             isRightMotorActive := false,
             servoCommands := List.replicate 6 '\x00',
             events := s.events ++ [SAFE_FAILSAFE_TRIGGER] }
  else s

/-- The cadence-gated motor update of loop() (CmdCtrl_Main.ino lines
159-164). -/
def motorPhase (b : SysState) (now : Nat) : SysState :=
  if now - b.lastMotorTime ≥ MOTOR_INTERVAL then
    { b with lastMotorTime := now,
             leftMotor := b.leftMotor.update,
             rightMotor := b.rightMotor.update }
  else b

/-- The cadence-gated servo update of loop() (CmdCtrl_Main.ino lines
166-170). -/
def servoPhase (c : SysState) (now : Nat) : SysState :=
  if now - c.lastServoTime ≥ SERVO_INTERVAL then
    { c with lastServoTime := now,
             controller := c.controller.update c.servoCommands }
  else c

/-- One pass of loop() (CmdCtrl_Main.ino lines 136-175): drain the
queued complete lines, run the failsafe check, then the cadence-gated
motor and servo updates. The LED update touches none of this state. -/
def loopIter (s : SysState) (now : Nat) (lines : List (List Char)) : SysState :=
  servoPhase (motorPhase (failsafeCheck (processBatch s now lines) now) now) now

/-- A run of the control loop over a trace of (millis, drained lines). -/
def runLoop (s : SysState) : List (Nat × List (List Char)) → SysState
  | [] => s
  | (now, lines) :: rest => runLoop (loopIter s now lines) rest

/-- Initial joint state (ServoController constructor). -/
def initJoint : Joint := { angle := 90, speed := 0, sensitivity := 1 }

/-- Initial ServoController: six joints at angle 90, speed 0;
maxSpeed 2.0, accel 0.05, decel 0.05 (ServoController.h). -/
def initController : ServoController :=
  { joints := List.replicate 6 initJoint, maxSpeed := 2,
    accel := 1/20, decel := 1/20 }

/-- System state at the end of setup(): motors stopped by begin(),
flags false, servo commands all Hold, lastCommandTime set to the boot
time t0 (GlobalVariables.cpp and setup()). -/
def initState (t0 : Nat) : SysState :=
  { leftMotor := { targetPWM := 0, currentPWM := 0, pwmStep := 5 },
    rightMotor := { targetPWM := 0, currentPWM := 0, pwmStep := 5 },
    controller := initController,
    servoCommands := List.replicate 6 '\x00',
    isLeftMotorActive := false,
    isRightMotorActive := false,
    failsafeTriggered := false,
    lastCommandTime := t0,
    lastMotorTime := 0,
    lastServoTime := 0,
    events := [] }

/-- One byte of checkInput (CmdCtrl_Main.ino lines 72-87), acting on
(line buffer, dispatched lines); the fill index is the buffer length. -/
def checkInputStep (st : List Char × List (List Char)) (c : Char) :
    List Char × List (List Char) :=
  if c = '\n' ∨ c = '\r' then
    if 0 < st.1.length then ([], st.2 ++ [st.1]) else st
  else
    if st.1.length < MAX_CMD_LEN - 1 then (st.1 ++ [c], st.2) else st

/-- checkInput draining every currently available byte in one pass,
starting from an empty buffer. -/
def checkInputRun (input : List Char) : List Char × List (List Char) :=
  input.foldl checkInputStep ([], [])

/-- Modelled from the spec: the command grammar of section 6 — motor
form, two integers separated by a single comma, or joint form,
S followed by a joint digit 1..6 and a direction character. The code
has no such validity test; this definition exists to state claims that
speak about valid versus malformed lines. -/
def splitAtComma : List Char → Option (List Char × List Char)
  | [] => none
  | ',' :: rest => some ([], rest)
  | c :: rest => (splitAtComma rest).map (fun p => (c :: p.1, p.2))

/-- Modelled from the spec: an ASCII integer token, optional sign then
at least one digit. -/
def isIntToken (t : List Char) : Bool :=
  match t with
  | '-' :: ds => !ds.isEmpty && ds.all Char.isDigit
  | '+' :: ds => !ds.isEmpty && ds.all Char.isDigit
  | ds => !ds.isEmpty && ds.all Char.isDigit

/-- Modelled from the spec: a line is valid when it matches the joint
form S<digit 1..6><dir> or the motor form int,int. -/
def specValidLine (l : List Char) : Bool :=
  (match l with
   | 'S' :: d :: _ => ('1' : Char) ≤ d && d ≤ '6'
   | _ => false) ||
  (match splitAtComma l with
   | some (a, b) => isIntToken a && !(b.contains ',') && isIntToken b
   | none => false)

/-- Scanner speed in milliseconds (LedSystems.h). -/
def SCAN_SPEED : Nat := 100

/-- The LedController fields read or written by runScannerLogic
(LedSystems.h). -/
structure ScannerState where
  lastScanTime : Nat
  scannerIdx : Int
  scannerDir : Int
  scannerStep : Int
  sSingle : Bool
  tSingle : Nat
deriving DecidableEq

/-- LedController initial field values (LedSystems.h lines 19-32). -/
def ScannerState.start : ScannerState :=
  { lastScanTime := 0, scannerIdx := 0, scannerDir := 1, scannerStep := 0,
    sSingle := false, tSingle := 0 }

/-- runSimpleBlinker state change (LedSystems.h lines 64-70). -/
def blinkerStep (speed now : Nat) (state : Bool) (lastTime : Nat) :
    Bool × Nat :=
  if now - lastTime ≥ speed then (!state, now) else (state, lastTime)

/-- runScannerLogic (LedSystems.h lines 86-124): the new state paired
with the list of indices used to subscript the 2-element PIN_SCANNER
array during the call, in order. -/
def runScannerLogic (st : ScannerState) (now : Nat)
    (leftActive rightActive : Bool) : ScannerState × List Int :=
  if !leftActive && !rightActive then (st, [0, 1])
  else if leftActive && rightActive then
    if now - st.lastScanTime < SCAN_SPEED then (st, [])
    else
      let st1 := { st with lastScanTime := now }
      if st1.scannerStep = 0 ∨ st1.scannerStep = 2 then
        ({ st1 with scannerStep := st1.scannerStep + 1 }, [st1.scannerIdx])
      else if st1.scannerStep = 1 then
        ({ st1 with scannerStep := st1.scannerStep + 1 }, [st1.scannerIdx])
      else if st1.scannerStep = 3 then
        let next := st1.scannerIdx + st1.scannerDir
        let dirIdx : Int × Int :=
          if next ≥ 2 then (-1, 0)
          else if next < 0 then (1, 1)
          else (st1.scannerDir, next)
        ({ st1 with scannerDir := dirIdx.1, scannerIdx := dirIdx.2,
                    scannerStep := 0 }, [st1.scannerIdx, dirIdx.2])
      else ({ st1 with scannerStep := st1.scannerStep + 1 }, [])
  else if leftActive && !rightActive then
    let b := blinkerStep SCAN_SPEED now st.sSingle st.tSingle
    ({ st with sSingle := b.1, tSingle := b.2 }, [1, 0])
  else
    let b := blinkerStep SCAN_SPEED now st.sSingle st.tSingle
    ({ st with sSingle := b.1, tSingle := b.2 }, [0, 1])

/-- A run of the scanner logic over a trace of (millis, left, right)
inputs, collecting every PIN_SCANNER subscript made along the way. -/
def scannerRun : ScannerState → List (Nat × Bool × Bool) →
    ScannerState × List Int
  | st, [] => (st, [])
  | st, (now, l, r) :: rest =>
    let step := runScannerLogic st now l r
    let tail := scannerRun step.1 rest
    (tail.1, step.2 ++ tail.2)

/-- The actuator-relevant fields of two states agree: motors, servo
commands, servo controller, and the two activity flags. -/
def actuatorEq (a b : SysState) : Prop :=
  a.leftMotor = b.leftMotor ∧ a.rightMotor = b.rightMotor ∧
  a.servoCommands = b.servoCommands ∧ a.controller = b.controller ∧
  a.isLeftMotorActive = b.isLeftMotorActive ∧
  a.isRightMotorActive = b.isRightMotorActive

/-- The motor activity flags match the stored targets being nonzero. -/
def motorFlagInv (s : SysState) : Prop :=
  s.isLeftMotorActive = (s.leftMotor.targetPWM != 0) ∧
  s.isRightMotorActive = (s.rightMotor.targetPWM != 0)

/-- Everything the failsafe must zero is zero: motor targets and
currents, every joint speed, every pending joint direction command. -/
def actuatorsZeroed (s : SysState) : Prop :=
  s.leftMotor.targetPWM = 0 ∧ s.leftMotor.currentPWM = 0 ∧
  s.rightMotor.targetPWM = 0 ∧ s.rightMotor.currentPWM = 0 ∧
  (∀ j ∈ s.controller.joints, j.speed = 0) ∧
  (∀ c ∈ s.servoCommands, c = '\x00')

/-- The scanner state invariant of C10: index in the 2-element array,
direction a unit step. -/
def scannerInv (st : ScannerState) : Prop :=
  (st.scannerIdx = 0 ∨ st.scannerIdx = 1) ∧
  (st.scannerDir = -1 ∨ st.scannerDir = 1)

/-! ## Helper lemmas -/

lemma motorRamp_self (step target : Int) : motorRamp step target target = target := by
  unfold motorRamp
  simp

lemma motorRamp_reaches (step target : Int) (hs : 0 < step) :
    ∀ k (current : Int), (target - current).natAbs ≤ k →
      (motorRamp step target)^[k] current = target := by
  intro k
  induction k with
  | zero =>
    intro c h
    have : c = target := by omega
    simp [this]
  | succ k ih =>
    intro c h
    by_cases hc : c = target
    · rw [hc]
      exact Function.iterate_fixed (motorRamp_self step target) (k + 1)
    · rw [Function.iterate_succ_apply]
      refine ih _ ?_
      unfold motorRamp
      split_ifs <;> omega

lemma servoRamp_self (a d t : ℚ) : servoRamp a d t t = t := by
  unfold servoRamp
  simp

lemma servoRamp_reaches_from_below (a d t : ℚ) (ha : 0 < a) :
    ∀ (k : ℕ) (c : ℚ), c ≤ t → t - c ≤ (k : ℚ) * a → (servoRamp a d t)^[k] c = t := by
  intro k
  induction k with
  | zero =>
    intro c h1 h2
    have : c = t := by push_cast at h2; linarith
    simp [this]
  | succ k ih =>
    intro c h1 h2
    by_cases hc : c = t
    · rw [hc]
      exact Function.iterate_fixed (servoRamp_self a d t) (k + 1)
    · have hlt : c < t := lt_of_le_of_ne h1 hc
      rw [Function.iterate_succ_apply]
      have hr : servoRamp a d t c = min (c + a) t := by
        unfold servoRamp
        rw [if_pos hlt]
      rcases le_total (c + a) t with hle | hge
      · rw [hr, min_eq_left hle]
        refine ih _ hle ?_
        push_cast at h2 ⊢
        linarith
      · rw [hr, min_eq_right hge]
        refine ih t le_rfl ?_
        have : (0 : ℚ) ≤ (k : ℚ) * a := by positivity
        linarith

lemma servoRamp_reaches_from_above (a d t : ℚ) (hd : 0 < d) :
    ∀ (k : ℕ) (c : ℚ), t ≤ c → c - t ≤ (k : ℚ) * d → (servoRamp a d t)^[k] c = t := by
  intro k
  induction k with
  | zero =>
    intro c h1 h2
    have : c = t := by push_cast at h2; linarith
    simp [this]
  | succ k ih =>
    intro c h1 h2
    by_cases hc : c = t
    · rw [hc]
      exact Function.iterate_fixed (servoRamp_self a d t) (k + 1)
    · have hlt : t < c := lt_of_le_of_ne h1 (fun h => hc h.symm)
      rw [Function.iterate_succ_apply]
      have hr : servoRamp a d t c = max (c - d) t := by
        unfold servoRamp
        rw [if_neg (not_lt.mpr (le_of_lt hlt)), if_pos hlt]
      rcases le_total t (c - d) with hle | hge
      · rw [hr, max_eq_left hle]
        refine ih _ hle ?_
        push_cast at h2 ⊢
        linarith
      · rw [hr, max_eq_right hge]
        refine ih t le_rfl ?_
        have : (0 : ℚ) ≤ (k : ℚ) * d := by positivity
        linarith

lemma qconstrain_range (amt : ℚ) : 0 ≤ qconstrain amt 0 180 ∧ qconstrain amt 0 180 ≤ 180 := by
  unfold qconstrain
  split_ifs <;> constructor <;> linarith

lemma update_joints_range (sc : ServoController) (commands : List Char) :
    ∀ j ∈ (sc.update commands).joints, 0 ≤ j.angle ∧ j.angle ≤ 180 := by
  intro j hj
  unfold ServoController.update at hj
  simp only [List.mem_map] at hj
  obtain ⟨p, _, rfl⟩ := hj
  exact qconstrain_range _

lemma foldl_update_range (cmdss : List (List Char)) :
    ∀ (sc : ServoController), (∀ j ∈ sc.joints, 0 ≤ j.angle ∧ j.angle ≤ 180) →
      ∀ j ∈ (cmdss.foldl ServoController.update sc).joints,
        0 ≤ j.angle ∧ j.angle ≤ 180 := by
  induction cmdss with
  | nil => intro sc hsc; exact hsc
  | cons c rest ih =>
    intro sc _
    rw [List.foldl_cons]
    exact ih _ (update_joints_range sc c)

/-! ## Claim theorems -/

/-- C4: a single Motor::update call changes currentPWM by at most
pwmStep in absolute value, and currentPWM never moves strictly past
targetPWM in either direction. -/
theorem motor_update_step_bounded_no_overshoot (m : Motor) (h : 0 ≤ m.pwmStep) :
    |(Motor.update m).currentPWM - m.currentPWM| ≤ m.pwmStep ∧
    (m.currentPWM ≤ m.targetPWM → (Motor.update m).currentPWM ≤ m.targetPWM) ∧
    (m.targetPWM ≤ m.currentPWM → m.targetPWM ≤ (Motor.update m).currentPWM) := by
  have he : (Motor.update m).currentPWM = motorRamp m.pwmStep m.targetPWM m.currentPWM := rfl
  rw [he, abs_sub_le_iff]
  unfold motorRamp
  split_ifs <;>
    exact ⟨⟨by omega, by omega⟩, fun hc => by omega, fun hc => by omega⟩

/-- C4 witness: the left motor of the program (pwmStep 5) at current 0
and target 9 moves by at most 5 and does not overshoot 9. -/
theorem motor_update_step_bounded_no_overshoot_witness :
    |(Motor.update (Motor.mk 9 0 5)).currentPWM - (Motor.mk 9 0 5).currentPWM| ≤
      (Motor.mk 9 0 5).pwmStep ∧
    (Motor.update (Motor.mk 9 0 5)).currentPWM ≤ (Motor.mk 9 0 5).targetPWM :=
  ⟨(motor_update_step_bounded_no_overshoot (Motor.mk 9 0 5) (by decide)).1,
   (motor_update_step_bounded_no_overshoot (Motor.mk 9 0 5) (by decide)).2.1 (by decide)⟩

/-- C8: iterating the ramp step with a fixed target reaches the target
exactly, both for the integer motor ramp (Motor::update) and for the
servo speed ramp (ServoController::update), for any strictly positive
step sizes. -/
theorem ramp_round_trip_exact :
    (∀ (step target current : Int), 0 < step →
        ∃ n, (motorRamp step target)^[n] current = target) ∧
    (∀ (accel decel target speed : ℚ), 0 < accel → 0 < decel →
        ∃ n, (servoRamp accel decel target)^[n] speed = target) := by
  constructor
  · intro step target current hs
    exact ⟨(target - current).natAbs, motorRamp_reaches step target hs _ current le_rfl⟩
  · intro accel decel target speed ha hd
    rcases le_total speed target with h | h
    · obtain ⟨k, hk⟩ := exists_nat_ge ((target - speed) / accel)
      refine ⟨k, servoRamp_reaches_from_below accel decel target ha k speed h ?_⟩
      rw [div_le_iff₀ ha] at hk
      linarith
    · obtain ⟨k, hk⟩ := exists_nat_ge ((speed - target) / decel)
      refine ⟨k, servoRamp_reaches_from_above accel decel target hd k speed h ?_⟩
      rw [div_le_iff₀ hd] at hk
      linarith

/-- C8 witness: the program's motor ramp (step 5) reaches target 9 from
0, and the program's servo ramp (accel = decel = 0.05) reaches speed 2
from 0. -/
theorem ramp_round_trip_exact_witness :
    (∃ n, (motorRamp 5 9)^[n] 0 = 9) ∧
    (∃ n, (servoRamp (1/20) (1/20) 2)^[n] 0 = 2) :=
  ⟨ramp_round_trip_exact.1 5 9 0 (by norm_num),
   ramp_round_trip_exact.2 (1/20) (1/20) 2 0 (by norm_num) (by norm_num)⟩

lemma foldl_update_range_of_init (cmdss : List (List Char)) :
    ∀ j ∈ (cmdss.foldl ServoController.update initController).joints,
      0 ≤ j.angle ∧ j.angle ≤ 180 := by
  refine foldl_update_range cmdss initController ?_
  intro j hj
  unfold initController at hj
  simp only [List.mem_replicate] at hj
  rw [hj.2]
  unfold initJoint
  norm_num

/-- C5: starting from the initial controller (all angles 90), after any
sequence of update ticks with any joint direction commands, every
joint's angle lies within [0,180]: the integration angle += speed is
clamped to [0,180] on every tick before the pulse is written. -/
theorem servo_angles_always_in_range (cmdss : List (List Char)) (i : Nat) :
    0 ≤ ((cmdss.foldl ServoController.update initController).joints.getD
        i initJoint).angle ∧
    ((cmdss.foldl ServoController.update initController).joints.getD
        i initJoint).angle ≤ 180 := by
  rcases lt_or_le i (cmdss.foldl ServoController.update initController).joints.length with h | h
  · refine foldl_update_range_of_init cmdss _ ?_
    rw [List.getD_eq_getElem _ initJoint h]
    exact List.getElem_mem h
  · rw [List.getD_eq_default _ initJoint h]
    unfold initJoint
    norm_num



/-! helper lemmas about resetAndClear / commandDispatch / processCommand -/

lemma resetAndClear_spec (s : SysState) (now : Nat) :
    resetAndClear s now =
      { s with lastCommandTime := now, failsafeTriggered := false,
               events := s.events ++
                 (if s.failsafeTriggered then [SAFE_FAILSAFE_CLEAR] else []) } := by
  unfold resetAndClear
  cases hfs : s.failsafeTriggered <;> simp [hfs]

lemma commandDispatch_keeps (s2 : SysState) (cmd : List Char) :
    (commandDispatch s2 cmd).failsafeTriggered = s2.failsafeTriggered ∧
    (commandDispatch s2 cmd).lastCommandTime = s2.lastCommandTime ∧
    (commandDispatch s2 cmd).events = s2.events ∧
    (commandDispatch s2 cmd).controller = s2.controller ∧
    (commandDispatch s2 cmd).lastMotorTime = s2.lastMotorTime ∧
    (commandDispatch s2 cmd).lastServoTime = s2.lastServoTime := by
  unfold commandDispatch
  split_ifs <;> (try split) <;> simp_all

lemma processCommand_proj (s : SysState) (now : Nat) (cmd : List Char) :
    (processCommand s now cmd).failsafeTriggered = false ∧
    (processCommand s now cmd).lastCommandTime = now ∧
    (processCommand s now cmd).events =
      s.events ++ (if s.failsafeTriggered then [SAFE_FAILSAFE_CLEAR] else []) ∧
    (processCommand s now cmd).controller = s.controller ∧
    (processCommand s now cmd).lastMotorTime = s.lastMotorTime ∧
    (processCommand s now cmd).lastServoTime = s.lastServoTime := by
  obtain ⟨k1, k2, k3, k4, k5, k6⟩ := commandDispatch_keeps (resetAndClear s now) cmd
  unfold processCommand
  rw [k1, k2, k3, k4, k5, k6, resetAndClear_spec]
  exact ⟨rfl, rfl, rfl, rfl, rfl, rfl⟩

lemma commandDispatch_s_oob (s2 : SysState) (cmd : List Char)
    (h0 : charAt cmd 0 = 'S')
    (h1 : ¬(0 ≤ ((charAt cmd 1).toNat : Int) - 49 ∧
        ((charAt cmd 1).toNat : Int) - 49 < (numServos : Int))) :
    commandDispatch s2 cmd = s2 := by
  unfold commandDispatch
  rw [if_pos h0, if_neg h1]

lemma commandDispatch_s_inrange (s2 : SysState) (cmd : List Char)
    (h0 : charAt cmd 0 = 'S')
    (h1 : 0 ≤ ((charAt cmd 1).toNat : Int) - 49 ∧
        ((charAt cmd 1).toNat : Int) - 49 < (numServos : Int)) :
    commandDispatch s2 cmd =
      { s2 with servoCommands := s2.servoCommands.set (((charAt cmd 1).toNat : Int) - 49).toNat (servoDirOf (charAt cmd 2)) } := by
  unfold commandDispatch
  rw [if_pos h0, if_pos h1]

lemma commandDispatch_motor (s2 : SysState) (cmd : List Char)
    (h0 : ¬ charAt cmd 0 = 'S') (t1 t2 : List Char) (rest : List (List Char))
    (htok : tokenize cmd = t1 :: t2 :: rest) :
    commandDispatch s2 cmd =
      { s2 with
          leftMotor := s2.leftMotor.setTarget (atoi t1),
          rightMotor := s2.rightMotor.setTarget (atoi t2),
          isLeftMotorActive := atoi t1 != 0,
          isRightMotorActive := atoi t2 != 0 } := by
  unfold commandDispatch
  rw [if_neg h0]
  simp only [htok]

lemma commandDispatch_short (s2 : SysState) (cmd : List Char)
    (h0 : ¬ charAt cmd 0 = 'S')
    (htok : ∀ t1 t2 rest, tokenize cmd ≠ t1 :: t2 :: rest) :
    commandDispatch s2 cmd = s2 := by
  unfold commandDispatch
  rw [if_neg h0]
  rcases h : tokenize cmd with _ | ⟨a, _ | ⟨b, r⟩⟩
  · rfl
  · rfl
  · exact absurd h (htok a b r)

/-! equality of the actuator-relevant fields -/


lemma actuatorEq_refl (a : SysState) : actuatorEq a a :=
  ⟨rfl, rfl, rfl, rfl, rfl, rfl⟩

lemma actuatorEq_trans (a b c : SysState) (h1 : actuatorEq a b)
    (h2 : actuatorEq b c) : actuatorEq a c := by
  obtain ⟨x1, x2, x3, x4, x5, x6⟩ := h1
  obtain ⟨y1, y2, y3, y4, y5, y6⟩ := h2
  exact ⟨x1.trans y1, x2.trans y2, x3.trans y3, x4.trans y4, x5.trans y5, x6.trans y6⟩

lemma processCommand_oob_actuatorEq (s : SysState) (now : Nat) (cmd : List Char)
    (h0 : charAt cmd 0 = 'S')
    (h1 : ¬(0 ≤ ((charAt cmd 1).toNat : Int) - 49 ∧
        ((charAt cmd 1).toNat : Int) - 49 < (numServos : Int))) :
    actuatorEq (processCommand s now cmd) s := by
  unfold processCommand
  rw [commandDispatch_s_oob _ cmd h0 h1, resetAndClear_spec]
  exact ⟨rfl, rfl, rfl, rfl, rfl, rfl⟩

lemma processBatch_oob_actuatorEq (now : Nat) (lines : List (List Char)) :
    ∀ (s : SysState),
      (∀ l ∈ lines, charAt l 0 = 'S' ∧
          ¬(0 ≤ ((charAt l 1).toNat : Int) - 49 ∧
            ((charAt l 1).toNat : Int) - 49 < (numServos : Int))) →
      actuatorEq (processBatch s now lines) s := by
  induction lines with
  | nil => intro s _; exact actuatorEq_refl s
  | cons l rest ih =>
    intro s h
    have hl := h l (List.mem_cons_self l rest)
    have htail := ih (processCommand s now l)
      (fun l2 hl2 => h l2 (List.mem_cons_of_mem _ hl2))
    have hstep := processCommand_oob_actuatorEq s now l hl.1 hl.2
    exact actuatorEq_trans _ _ _ htail hstep

lemma processBatch_lastCommandTime (now : Nat) (lines : List (List Char)) :
    ∀ (s : SysState), lines ≠ [] →
      (processBatch s now lines).lastCommandTime = now := by
  induction lines with
  | nil => intro s h; exact absurd rfl h
  | cons l rest ih =>
    intro s _
    rcases eq_or_ne rest [] with hr | hr
    · subst hr
      exact (processCommand_proj s now l).2.1
    · exact ih (processCommand s now l) hr



/-- C1 counterexample: the batch of the two malformed lines Q,9 and S9X
(neither matches the motor form nor the joint form) does reset the
failsafe deadline — lastCommandTime changes from 0 to the loop time 100
— and does change actuator state: Q,9 falls into the motor branch,
atoi("Q") = 0 and atoi("9") = 9, so the right motor target becomes 9.
This refutes the claim that a batch of only malformed lines leaves the
deadline and the actuator state untouched. -/
theorem malformed_batch_does_reset_counterexample :
    specValidLine ['Q', ',', '9'] = false ∧
    specValidLine ['S', '9', 'X'] = false ∧
    (processBatch (initState 0) 100 [['Q', ',', '9'], ['S', '9', 'X']]).lastCommandTime ≠
      (initState 0).lastCommandTime ∧
    (processBatch (initState 0) 100 [['Q', ',', '9'], ['S', '9', 'X']]).rightMotor.targetPWM ≠
      (initState 0).rightMotor.targetPWM := by decide

/-- C1 amended: processing any non-empty batch of drained lines resets
the failsafe deadline (lastCommandTime := now) no matter whether the
lines are valid — processCommand resets the timer before parsing — and
a batch consisting only of S-prefixed lines with an out-of-range joint
index (such as S9X) changes no actuator state. (Malformed lines that
reach the motor branch with two comma tokens, such as Q,9, do change
motor state, as the counterexample shows.) -/
theorem malformed_batch_amended (s : SysState) (now : Nat) (lines : List (List Char))
    (hne : lines ≠ [])
    (hmal : ∀ l ∈ lines, charAt l 0 = 'S' ∧
        ¬(0 ≤ ((charAt l 1).toNat : Int) - 49 ∧
          ((charAt l 1).toNat : Int) - 49 < (numServos : Int))) :
    (processBatch s now lines).lastCommandTime = now ∧
    actuatorEq (processBatch s now lines) s :=
  ⟨processBatch_lastCommandTime now lines s hne,
   processBatch_oob_actuatorEq now lines s hmal⟩

/-- C1 witness: a concrete batch of one out-of-range joint line. -/
theorem malformed_batch_amended_witness :
    (processBatch (initState 7) 100 [['S', '9', 'X']]).lastCommandTime = 100 ∧
    actuatorEq (processBatch (initState 7) 100 [['S', '9', 'X']]) (initState 7) :=
  malformed_batch_amended (initState 7) 100 [['S', '9', 'X']] (by decide) (by decide)

/-! C3 helpers -/

lemma processBatch_stays_clear (now : Nat) (lines : List (List Char)) :
    ∀ (s : SysState), s.failsafeTriggered = false →
      (processBatch s now lines).failsafeTriggered = false ∧
      (processBatch s now lines).events = s.events := by
  induction lines with
  | nil => intro s h; exact ⟨h, rfl⟩
  | cons l rest ih =>
    intro s h
    obtain ⟨p1, _, p3, _, _, _⟩ := processCommand_proj s now l
    have := ih (processCommand s now l) p1
    refine ⟨this.1, ?_⟩
    rw [show processBatch s now (l :: rest) =
        processBatch (processCommand s now l) now rest from rfl, this.2, p3, h]
    simp

/-- C3: from a tripped state, draining a batch that contains at least
one valid command clears the tripped flag — already within the dispatch
of the first drained line, hence at latest within the dispatch of the
first valid command, not deferred to a later cycle — and exactly one
failsafe-cleared event (code SAFE_FAILSAFE_CLEAR) is emitted for the
whole batch, however many commands it contains. -/
theorem tripped_cleared_once_per_batch (s : SysState) (now : Nat)
    (lines : List (List Char)) (ht : s.failsafeTriggered = true)
    (hv : ∃ l ∈ lines, specValidLine l = true) :
    (processBatch s now lines).failsafeTriggered = false ∧
    (processBatch s now lines).events.count SAFE_FAILSAFE_CLEAR =
      s.events.count SAFE_FAILSAFE_CLEAR + 1 ∧
    (∀ l rest, lines = l :: rest →
      (processCommand s now l).failsafeTriggered = false) := by
  obtain ⟨l0, hl0, _⟩ := hv
  rcases lines with _ | ⟨l, rest⟩
  · exact absurd hl0 (List.not_mem_nil l0)
  obtain ⟨p1, _, p3, _, _, _⟩ := processCommand_proj s now l
  have hev : (processCommand s now l).events = s.events ++ [SAFE_FAILSAFE_CLEAR] := by
    rw [p3, ht]
    simp
  have hrest := processBatch_stays_clear now rest (processCommand s now l) p1
  refine ⟨hrest.1, ?_, ?_⟩
  · rw [show processBatch s now (l :: rest) =
        processBatch (processCommand s now l) now rest from rfl, hrest.2, hev]
    simp [List.count_append]
  · intro l2 rest2 heq
    cases heq
    exact p1

/-- C3 witness: a tripped state and a batch of one valid motor line. -/
theorem tripped_cleared_once_witness :
    (processBatch { initState 0 with failsafeTriggered := true } 50
        [['1', ',', '2']]).failsafeTriggered = false ∧
    (processBatch { initState 0 with failsafeTriggered := true } 50
        [['1', ',', '2']]).events.count SAFE_FAILSAFE_CLEAR =
      ({ initState 0 with failsafeTriggered := true } : SysState).events.count
        SAFE_FAILSAFE_CLEAR + 1 ∧
    (∀ l rest, ([['1', ',', '2']] : List (List Char)) = l :: rest →
      (processCommand { initState 0 with failsafeTriggered := true } 50
          l).failsafeTriggered = false) :=
  tripped_cleared_once_per_batch { initState 0 with failsafeTriggered := true } 50
    [['1', ',', '2']] (by decide) (by decide)



/-! C9 helpers -/

lemma constrain_eq_zero_iff (v : Int) : constrain v (-255) 255 = 0 ↔ v = 0 := by
  unfold constrain
  split_ifs <;> simp_all <;> omega

lemma constrain_bne_zero (v : Int) : ((constrain v (-255) 255) != 0) = (v != 0) := by
  rw [Bool.eq_iff_iff, bne_iff_ne, bne_iff_ne, ne_eq, ne_eq, not_iff_not]
  exact constrain_eq_zero_iff v


lemma resetAndClear_motorFlagInv (s : SysState) (now : Nat)
    (h : motorFlagInv s) : motorFlagInv (resetAndClear s now) := by
  rw [resetAndClear_spec]
  exact h

lemma commandDispatch_motorFlagInv (s2 : SysState) (cmd : List Char)
    (h : motorFlagInv s2) : motorFlagInv (commandDispatch s2 cmd) := by
  unfold commandDispatch
  split_ifs <;> (try split) <;>
    simp_all [motorFlagInv, Motor.setTarget, constrain_bne_zero]

lemma processCommand_motorFlagInv (s : SysState) (now : Nat) (cmd : List Char)
    (h : motorFlagInv s) : motorFlagInv (processCommand s now cmd) :=
  commandDispatch_motorFlagInv _ cmd (resetAndClear_motorFlagInv s now h)

lemma processBatch_motorFlagInv (now : Nat) (lines : List (List Char)) :
    ∀ (s : SysState), motorFlagInv s → motorFlagInv (processBatch s now lines) := by
  induction lines with
  | nil => intro s h; exact h
  | cons l rest ih =>
    intro s h
    exact ih (processCommand s now l) (processCommand_motorFlagInv s now l h)

lemma failsafeCheck_motorFlagInv (s : SysState) (now : Nat)
    (h : motorFlagInv s) : motorFlagInv (failsafeCheck s now) := by
  unfold failsafeCheck
  split_ifs
  · exact ⟨rfl, rfl⟩
  · exact h

lemma motorPhase_motorFlagInv (b : SysState) (now : Nat)
    (h : motorFlagInv b) : motorFlagInv (motorPhase b now) := by
  unfold motorPhase
  split_ifs
  · exact h
  · exact h

lemma servoPhase_motorFlagInv (c : SysState) (now : Nat)
    (h : motorFlagInv c) : motorFlagInv (servoPhase c now) := by
  unfold servoPhase
  split_ifs
  · exact h
  · exact h

lemma loopIter_motorFlagInv (s : SysState) (now : Nat) (lines : List (List Char))
    (h : motorFlagInv s) : motorFlagInv (loopIter s now lines) :=
  servoPhase_motorFlagInv _ now (motorPhase_motorFlagInv _ now
    (failsafeCheck_motorFlagInv _ now (processBatch_motorFlagInv now lines s h)))

lemma runLoop_motorFlagInv (trace : List (Nat × List (List Char))) :
    ∀ (s : SysState), motorFlagInv s → motorFlagInv (runLoop s trace) := by
  induction trace with
  | nil => intro s h; exact h
  | cons p rest ih =>
    intro s h
    exact ih (loopIter s p.1 p.2) (loopIter_motorFlagInv s p.1 p.2 h)

/-- C9: in every state reachable by the control loop from the initial
state, each stored motor activity flag equals whether that motor's
stored target is nonzero: isLeftMotorActive = (leftMotor.targetPWM != 0)
and isRightMotorActive = (rightMotor.targetPWM != 0). Command processing
sets the flag from the unclamped parsed value while the target stores
the clamped value, which agree on being nonzero; the failsafe trip
zeroes both together. -/
theorem motor_activity_flag_invariant (t0 : Nat)
    (trace : List (Nat × List (List Char))) :
    motorFlagInv (runLoop (initState t0) trace) :=
  runLoop_motorFlagInv trace (initState t0) ⟨rfl, rfl⟩

/-! C2 helpers -/


lemma failsafeCheck_trip (s : SysState) (now : Nat)
    (h1 : s.failsafeTriggered = false)
    (h2 : now - s.lastCommandTime > FAILSAFE_TIMEOUT) :
    failsafeCheck s now =
      { s with failsafeTriggered := true,
               leftMotor := s.leftMotor.emergencyStop,
               rightMotor := s.rightMotor.emergencyStop,
               controller := s.controller.emergencyStop,
               isLeftMotorActive := false, isRightMotorActive := false,
               servoCommands := List.replicate 6 '\x00',
               events := s.events ++ [SAFE_FAILSAFE_TRIGGER] } := by
  unfold failsafeCheck
  rw [if_pos]
  exact ⟨by simp [h1], h2⟩

lemma failsafeCheck_when_tripped (s : SysState) (now : Nat)
    (h : s.failsafeTriggered = true) : failsafeCheck s now = s := by
  unfold failsafeCheck
  rw [if_neg]
  simp [h]

lemma emergencyStop_joint_speeds (sc : ServoController) :
    ∀ j ∈ (ServoController.emergencyStop sc).joints, j.speed = 0 := by
  intro j hj
  unfold ServoController.emergencyStop at hj
  simp only [List.mem_map] at hj
  obtain ⟨j0, _, rfl⟩ := hj
  rfl

lemma update_zero_speeds (sc : ServoController) (commands : List Char)
    (hj : ∀ j ∈ sc.joints, j.speed = 0)
    (hc : ∀ c ∈ commands, c = '\x00') :
    ∀ j ∈ (sc.update commands).joints, j.speed = 0 := by
  intro j hjm
  unfold ServoController.update at hjm
  simp only [List.mem_map] at hjm
  obtain ⟨⟨j0, c⟩, hmem, rfl⟩ := hjm
  have h1 : j0 ∈ sc.joints := (List.of_mem_zip hmem).1
  have h2 : c = '\x00' := hc c (List.of_mem_zip hmem).2
  have h3 : j0.speed = 0 := hj j0 h1
  subst h2
  have h4 : (jointUpdate sc.maxSpeed sc.accel sc.decel '\x00' j0).speed =
      servoRamp sc.accel sc.decel 0 j0.speed := rfl
  rw [h4, h3, servoRamp_self]

lemma motorPhase_zeroed (b : SysState) (now : Nat) (hz : actuatorsZeroed b) :
    actuatorsZeroed (motorPhase b now) ∧
    (motorPhase b now).failsafeTriggered = b.failsafeTriggered ∧
    (motorPhase b now).events = b.events := by
  obtain ⟨z1, z2, z3, z4, z5, z6⟩ := hz
  unfold motorPhase
  split_ifs with g
  · refine ⟨⟨z1, ?_, z3, ?_, z5, z6⟩, rfl, rfl⟩
    · show motorRamp b.leftMotor.pwmStep b.leftMotor.targetPWM b.leftMotor.currentPWM = 0
      rw [z1, z2]
      exact motorRamp_self _ 0
    · show motorRamp b.rightMotor.pwmStep b.rightMotor.targetPWM b.rightMotor.currentPWM = 0
      rw [z3, z4]
      exact motorRamp_self _ 0
  · exact ⟨⟨z1, z2, z3, z4, z5, z6⟩, rfl, rfl⟩

lemma servoPhase_zeroed (c : SysState) (now : Nat) (hz : actuatorsZeroed c) :
    actuatorsZeroed (servoPhase c now) ∧
    (servoPhase c now).failsafeTriggered = c.failsafeTriggered ∧
    (servoPhase c now).events = c.events := by
  obtain ⟨z1, z2, z3, z4, z5, z6⟩ := hz
  unfold servoPhase
  split_ifs with g
  · exact ⟨⟨z1, z2, z3, z4, update_zero_speeds c.controller c.servoCommands z5 z6, z6⟩,
      rfl, rfl⟩
  · exact ⟨⟨z1, z2, z3, z4, z5, z6⟩, rfl, rfl⟩

lemma gates_zeroed (b : SysState) (now : Nat) (hz : actuatorsZeroed b) :
    actuatorsZeroed (servoPhase (motorPhase b now) now) ∧
    (servoPhase (motorPhase b now) now).failsafeTriggered = b.failsafeTriggered ∧
    (servoPhase (motorPhase b now) now).events = b.events := by
  obtain ⟨mz, mf, me⟩ := motorPhase_zeroed b now hz
  obtain ⟨sz, sf, se⟩ := servoPhase_zeroed (motorPhase b now) now mz
  exact ⟨sz, sf.trans mf, se.trans me⟩

lemma failsafeCheck_trip_zeroed (s : SysState) (now : Nat)
    (h1 : s.failsafeTriggered = false)
    (h2 : now - s.lastCommandTime > FAILSAFE_TIMEOUT) :
    actuatorsZeroed (failsafeCheck s now) ∧
    (failsafeCheck s now).failsafeTriggered = true ∧
    (failsafeCheck s now).events = s.events ++ [SAFE_FAILSAFE_TRIGGER] := by
  rw [failsafeCheck_trip s now h1 h2]
  refine ⟨⟨rfl, rfl, rfl, rfl, ?_, ?_⟩, rfl, rfl⟩
  · exact emergencyStop_joint_speeds s.controller
  · intro c hc
    exact List.eq_of_mem_replicate hc

lemma loopIter_empty_trip (s : SysState) (now : Nat)
    (h1 : s.failsafeTriggered = false)
    (h2 : now - s.lastCommandTime > FAILSAFE_TIMEOUT) :
    actuatorsZeroed (loopIter s now []) ∧
    (loopIter s now []).failsafeTriggered = true ∧
    (loopIter s now []).events = s.events ++ [SAFE_FAILSAFE_TRIGGER] := by
  obtain ⟨hz, hf, he⟩ := failsafeCheck_trip_zeroed s now h1 h2
  obtain ⟨gz, gf, ge⟩ := gates_zeroed (failsafeCheck s now) now hz
  exact ⟨gz, gf.trans hf, ge.trans he⟩

lemma loopIter_empty_while_tripped (s : SysState) (now : Nat)
    (ht : s.failsafeTriggered = true) (hz : actuatorsZeroed s) :
    actuatorsZeroed (loopIter s now []) ∧
    (loopIter s now []).failsafeTriggered = true ∧
    (loopIter s now []).events = s.events := by
  have hl : loopIter s now [] = servoPhase (motorPhase s now) now := by
    unfold loopIter
    rw [show processBatch s now [] = s from rfl, failsafeCheck_when_tripped s now ht]
  obtain ⟨gz, gf, ge⟩ := gates_zeroed s now hz
  rw [hl]
  exact ⟨gz, gf.trans ht, ge⟩



/-- C2 amended: (1) if the failsafe is not tripped and the deadline has
passed, then on that same loop pass with no drained lines both motor
targets and currents, all joint speeds and all pending joint direction
commands become exactly zero, the tripped flag is set, and exactly one
SAFE_FAILSAFE_TRIGGER event is appended; (2) while already tripped the
failsafe check changes nothing and emits nothing (once per trip); (3)
while tripped and zeroed, a loop pass with no drained lines keeps
everything zero and emits nothing — so the values stay zero until a new
line is dispatched. (The original claim said "until a new valid command
is parsed"; the counterexample shows any dispatched line, valid or not,
resets the deadline, so the condition is "until a new line is
dispatched".) -/
theorem failsafe_trip_zeroes_and_holds (s : SysState) (now : Nat) :
    (s.failsafeTriggered = false → now - s.lastCommandTime > FAILSAFE_TIMEOUT →
        actuatorsZeroed (loopIter s now []) ∧
        (loopIter s now []).failsafeTriggered = true ∧
        (loopIter s now []).events = s.events ++ [SAFE_FAILSAFE_TRIGGER]) ∧
    (s.failsafeTriggered = true → failsafeCheck s now = s) ∧
    (s.failsafeTriggered = true → actuatorsZeroed s →
        actuatorsZeroed (loopIter s now []) ∧
        (loopIter s now []).failsafeTriggered = true ∧
        (loopIter s now []).events = s.events) :=
  ⟨fun h1 h2 => loopIter_empty_trip s now h1 h2,
   fun h => failsafeCheck_when_tripped s now h,
   fun h hz => loopIter_empty_while_tripped s now h hz⟩

/-- C2 witness: tripping from the boot state at time 600. -/
theorem failsafe_trip_zeroes_and_holds_witness :
    actuatorsZeroed (loopIter (initState 0) 600 []) ∧
    (loopIter (initState 0) 600 []).failsafeTriggered = true ∧
    (loopIter (initState 0) 600 []).events =
      (initState 0).events ++ [SAFE_FAILSAFE_TRIGGER] :=
  (failsafe_trip_zeroes_and_holds (initState 0) 600).1 (by decide) (by decide)

/-- C2 counterexample: a run in which the only valid command arrives at
time 10 and afterwards only the malformed line S9X arrives (at 600 and
1200): more than FAILSAFE_TIMEOUT elapses with no valid command parsed,
yet the failsafe never trips, the right motor keeps running at PWM 9,
and no SAFE_FAILSAFE_TRIGGER event is ever emitted — because every
dispatched line, valid or not, resets lastCommandTime. -/
theorem no_valid_command_yet_no_trip_counterexample :
    specValidLine ['0', ',', '9'] = true ∧
    specValidLine ['S', '9', 'X'] = false ∧
    (runLoop (initState 0)
        [(10, [['0', ',', '9']]), (600, [['S', '9', 'X']]),
         (1200, [['S', '9', 'X']])]).rightMotor.currentPWM = 9 ∧
    (runLoop (initState 0)
        [(10, [['0', ',', '9']]), (600, [['S', '9', 'X']]),
         (1200, [['S', '9', 'X']])]).failsafeTriggered = false ∧
    (runLoop (initState 0)
        [(10, [['0', ',', '9']]), (600, [['S', '9', 'X']]),
         (1200, [['S', '9', 'X']])]).events.count SAFE_FAILSAFE_TRIGGER = 0 := by
  decide



/-! C6 helpers -/

lemma digit_mem_iff (c : Char) :
    (0 ≤ ((c.toNat : Int) - 49) ∧ ((c.toNat : Int) - 49) < (numServos : Int)) ↔
      c ∈ ['1', '2', '3', '4', '5', '6'] := by
  constructor
  · rintro ⟨h1, h2⟩
    have hc := Char.ofNat_toNat c
    have h6 : (numServos : Int) = 6 := rfl
    rw [h6] at h2
    have h3 : 49 ≤ c.toNat := by omega
    have h4 : c.toNat < 55 := by omega
    have key : ∀ n : Nat, 49 ≤ n → n < 55 →
        Char.ofNat n ∈ ['1', '2', '3', '4', '5', '6'] := by
      intro n h5 h7
      interval_cases n <;> decide
    rw [← hc]
    exact key c.toNat h3 h4
  · intro h
    fin_cases h <;> exact ⟨by decide, by decide⟩

/-- C6: for any line beginning with S, if the second character is a
digit 1..6 the corresponding 0-based joint command is set to the third
character when it is L or R and to Hold (the 0 byte) otherwise; if the
second character is anything else (digit 0, 7-9, or a non-digit, so the
index cmd[1]-49 is out of range) the line is dropped with the joint
commands unchanged; in every S-case the motors, their activity flags and
the servo controller are untouched. -/
theorem servo_line_parse (s : SysState) (now : Nat) (cmd : List Char)
    (h : charAt cmd 0 = 'S') :
    (charAt cmd 1 ∈ ['1', '2', '3', '4', '5', '6'] →
        (processCommand s now cmd).servoCommands =
          s.servoCommands.set ((charAt cmd 1).toNat - 49)
            (servoDirOf (charAt cmd 2))) ∧
    (charAt cmd 1 ∉ ['1', '2', '3', '4', '5', '6'] →
        (processCommand s now cmd).servoCommands = s.servoCommands) ∧
    (processCommand s now cmd).leftMotor = s.leftMotor ∧
    (processCommand s now cmd).rightMotor = s.rightMotor ∧
    (processCommand s now cmd).controller = s.controller ∧
    (processCommand s now cmd).isLeftMotorActive = s.isLeftMotorActive ∧
    (processCommand s now cmd).isRightMotorActive = s.isRightMotorActive := by
  by_cases hd : charAt cmd 1 ∈ ['1', '2', '3', '4', '5', '6']
  · have hrange := (digit_mem_iff (charAt cmd 1)).mpr hd
    have hcd := commandDispatch_s_inrange (resetAndClear s now) cmd h hrange
    unfold processCommand
    rw [hcd, resetAndClear_spec]
    refine ⟨fun _ => ?_, fun hnd => absurd hd hnd, rfl, rfl, rfl, rfl, rfl⟩
    show s.servoCommands.set (((charAt cmd 1).toNat : Int) - 49).toNat
        (servoDirOf (charAt cmd 2)) =
      s.servoCommands.set ((charAt cmd 1).toNat - 49) (servoDirOf (charAt cmd 2))
    congr 1
    omega
  · have hrange : ¬(0 ≤ ((charAt cmd 1).toNat : Int) - 49 ∧
        ((charAt cmd 1).toNat : Int) - 49 < (numServos : Int)) :=
      fun hr => hd ((digit_mem_iff (charAt cmd 1)).mp hr)
    have hcd := commandDispatch_s_oob (resetAndClear s now) cmd h hrange
    unfold processCommand
    rw [hcd, resetAndClear_spec]
    exact ⟨fun hmem => absurd hmem hd, fun _ => rfl, rfl, rfl, rfl, rfl, rfl⟩

/-- C6 witness: the line S3L sets joint index 2 to L and leaves the
motors alone. -/
theorem servo_line_parse_witness :
    (processCommand (initState 3) 5 ['S', '3', 'L']).servoCommands =
      (initState 3).servoCommands.set ((charAt ['S', '3', 'L'] 1).toNat - 49)
        (servoDirOf (charAt ['S', '3', 'L'] 2)) ∧
    (processCommand (initState 3) 5 ['S', '3', 'L']).leftMotor =
      (initState 3).leftMotor :=
  ⟨(servo_line_parse (initState 3) 5 ['S', '3', 'L'] (by decide)).1 (by decide),
   (servo_line_parse (initState 3) 5 ['S', '3', 'L'] (by decide)).2.2.1⟩



/-! C7 helpers -/

lemma checkInput_foldl_inv (input : List Char) :
    ∀ (buf : List Char) (lines : List (List Char)),
      buf.length ≤ MAX_CMD_LEN - 1 →
      (∀ l ∈ lines, 1 ≤ l.length ∧ l.length ≤ MAX_CMD_LEN - 1) →
      (input.foldl checkInputStep (buf, lines)).1.length ≤ MAX_CMD_LEN - 1 ∧
      (∀ l ∈ (input.foldl checkInputStep (buf, lines)).2,
        1 ≤ l.length ∧ l.length ≤ MAX_CMD_LEN - 1) := by
  induction input with
  | nil => intro buf lines hb hl; exact ⟨hb, hl⟩
  | cons c rest ih =>
    intro buf lines hb hl
    rw [List.foldl_cons]
    unfold checkInputStep
    dsimp only
    split_ifs with h1 h2 h3
    · refine ih [] (lines ++ [buf]) (by simp [MAX_CMD_LEN]) ?_
      intro l hlm
      rcases List.mem_append.mp hlm with hmem | hmem
      · exact hl l hmem
      · rw [List.mem_singleton.mp hmem]
        exact ⟨h2, hb⟩
    · exact ih buf lines hb hl
    · refine ih (buf ++ [c]) lines ?_ hl
      rw [List.length_append]
      have hm : MAX_CMD_LEN = 32 := rfl
      simp only [List.length_singleton]
      omega
    · exact ih buf lines hb hl

/-- C7: checkInput drains every available byte in one pass and per byte:
a terminator with a non-empty buffer dispatches the buffer and resets
the fill index to 0; a terminator with an empty buffer changes nothing;
any other byte is appended only when the fill index is below
MAX_CMD_LEN - 1 and is dropped otherwise. Hence, starting from the
empty buffer, the fill index always stays at most MAX_CMD_LEN - 1 = 31
and every dispatched line is non-empty with length at most 31, so every
buffer write including the terminating null lands inside the 32-byte
buffer. -/
theorem checkInput_never_overflows (input : List Char) :
    (checkInputRun input).1.length ≤ MAX_CMD_LEN - 1 ∧
    (∀ l ∈ (checkInputRun input).2, 1 ≤ l.length ∧ l.length ≤ MAX_CMD_LEN - 1) ∧
    (∀ (buf : List Char) (lines : List (List Char)) (c : Char),
      (c = '\n' ∨ c = '\r') →
        (0 < buf.length → checkInputStep (buf, lines) c = ([], lines ++ [buf])) ∧
        (buf.length = 0 → checkInputStep (buf, lines) c = (buf, lines))) ∧
    (∀ (buf : List Char) (lines : List (List Char)) (c : Char),
      ¬(c = '\n' ∨ c = '\r') →
        (buf.length < MAX_CMD_LEN - 1 →
          checkInputStep (buf, lines) c = (buf ++ [c], lines)) ∧
        (¬ buf.length < MAX_CMD_LEN - 1 →
          checkInputStep (buf, lines) c = (buf, lines))) := by
  refine ⟨?_, ?_, ?_, ?_⟩
  · exact (checkInput_foldl_inv input [] [] (by simp [MAX_CMD_LEN]) (by simp)).1
  · exact (checkInput_foldl_inv input [] [] (by simp [MAX_CMD_LEN]) (by simp)).2
  · intro buf lines c hc
    constructor
    · intro hb
      unfold checkInputStep
      rw [if_pos hc, if_pos hb]
    · intro hb
      unfold checkInputStep
      rw [if_pos hc, if_neg (by simp [hb])]
  · intro buf lines c hc
    constructor
    · intro hb
      unfold checkInputStep
      rw [if_neg hc, if_pos hb]
    · intro hb
      unfold checkInputStep
      rw [if_neg hc, if_neg hb]

/-- C7 witness: the byte stream A B newline. -/
theorem checkInput_never_overflows_witness :
    (checkInputRun ['A', 'B', '\n']).1.length ≤ MAX_CMD_LEN - 1 ∧
    (1 ≤ (['A', 'B'] : List Char).length ∧
      (['A', 'B'] : List Char).length ≤ MAX_CMD_LEN - 1) ∧
    checkInputStep (['A', 'B'], ([] : List (List Char))) '\n' =
      ([], [] ++ [['A', 'B']]) ∧
    checkInputStep (['A'], ([] : List (List Char))) 'B' = (['A'] ++ ['B'], []) :=
  ⟨(checkInput_never_overflows ['A', 'B', '\n']).1,
   (checkInput_never_overflows ['A', 'B', '\n']).2.1 ['A', 'B'] (by decide),
   ((checkInput_never_overflows ['A', 'B', '\n']).2.2.1 ['A', 'B'] [] '\n'
      (by decide)).1 (by decide),
   ((checkInput_never_overflows ['A', 'B', '\n']).2.2.2 ['A'] [] 'B'
      (by decide)).1 (by decide)⟩



/-! C10 helpers -/


lemma runScannerLogic_inv (st : ScannerState) (now : Nat) (l r : Bool)
    (h : scannerInv st) :
    scannerInv (runScannerLogic st now l r).1 ∧
    ((runScannerLogic st now l r).2.all (fun i => i == 0 || i == 1)) = true := by
  obtain ⟨h1, h2⟩ := h
  unfold runScannerLogic
  dsimp only
  split_ifs with g1 g2 g3 g4 g5 g6 g7 g8
  · exact ⟨⟨h1, h2⟩, rfl⟩
  · exact ⟨⟨h1, h2⟩, rfl⟩
  · exact ⟨⟨h1, h2⟩, by rcases h1 with h1 | h1 <;> rw [h1] <;> rfl⟩
  · exact ⟨⟨h1, h2⟩, by rcases h1 with h1 | h1 <;> rw [h1] <;> rfl⟩
  · exact ⟨⟨Or.inl rfl, Or.inl rfl⟩,
      by rcases h1 with h1 | h1 <;> rw [h1] <;> rfl⟩
  · exact ⟨⟨Or.inr rfl, Or.inr rfl⟩,
      by rcases h1 with h1 | h1 <;> rw [h1] <;> rfl⟩
  · have hnext : st.scannerIdx + st.scannerDir = 0 ∨
        st.scannerIdx + st.scannerDir = 1 := by omega
    exact ⟨⟨hnext, h2⟩,
      by rcases h1 with h1 | h1 <;> rcases hnext with hn | hn <;> rw [hn, h1] <;> rfl⟩
  · exact ⟨⟨h1, h2⟩, rfl⟩
  · exact ⟨⟨h1, h2⟩, rfl⟩
  · exact ⟨⟨h1, h2⟩, rfl⟩

lemma scannerRun_inv (trace : List (Nat × Bool × Bool)) :
    ∀ (st : ScannerState), scannerInv st →
      scannerInv (scannerRun st trace).1 ∧
      ((scannerRun st trace).2.all (fun i => i == 0 || i == 1)) = true := by
  induction trace with
  | nil => intro st h; exact ⟨h, rfl⟩
  | cons p rest ih =>
    intro st h
    obtain ⟨now, l, r⟩ := p
    obtain ⟨s1, s2⟩ := runScannerLogic_inv st now l r h
    obtain ⟨t1, t2⟩ := ih (runScannerLogic st now l r).1 s1
    refine ⟨t1, ?_⟩
    show ((runScannerLogic st now l r).2 ++
        (scannerRun (runScannerLogic st now l r).1 rest).2).all
      (fun i => i == 0 || i == 1) = true
    rw [List.all_append, s2, t2]
    rfl

/-- C10: over every input trace from the initial LedController state
(scannerIdx 0, scannerDir 1), the scanner state keeps scannerIdx in
{0, 1} and scannerDir in {-1, 1}, and every subscript used to access
the 2-element PIN_SCANNER array during runScannerLogic is 0 or 1, hence
in bounds. -/
theorem scanner_indices_in_bounds (trace : List (Nat × Bool × Bool)) :
    ((scannerRun ScannerState.start trace).1.scannerIdx = 0 ∨
      (scannerRun ScannerState.start trace).1.scannerIdx = 1) ∧
    ((scannerRun ScannerState.start trace).1.scannerDir = -1 ∨
      (scannerRun ScannerState.start trace).1.scannerDir = 1) ∧
    ((scannerRun ScannerState.start trace).2.all
      (fun i => i == 0 || i == 1)) = true := by
  obtain ⟨⟨a, b⟩, c⟩ := scannerRun_inv trace ScannerState.start ⟨Or.inl rfl, Or.inr rfl⟩
  exact ⟨a, b, c⟩


end AMBOT
